import Mathlib

/-!
Shallow embedding of the tagify resilience layer:
`src/utils/RateLimiter.ts` (request coordinator: sliding-window rate
limits, circuit breaker, in-flight deduplication) and
`src/utils/migration.ts` (resumable migration / metadata backfill
orchestrator).

Timestamps and millisecond durations are modelled as `Int` (JS numbers
used only through `Date.now()` arithmetic and comparisons, all exact on
integers).  The JS event loop runs each synchronous section atomically;
`execute`'s synchronous prefix (circuit check, dedup check, rate-limit
check, launch) is modelled as one step function on the limiter state.
-/

/-! ## RateLimiter.ts: data model -/

/-- `RateLimiterConfig` from `RateLimiter.ts`. -/
structure RateLimiterConfig where
  maxRequestsPerSecond : Nat
  maxRequestsPerMinute : Nat
  circuitBreakerThreshold : Nat
  circuitBreakerResetMs : Int
  requestTimeoutMs : Int
  deriving DecidableEq, Repr

/-- `RequestRecord` from `RateLimiter.ts`: one entry of `requestHistory`,
pushed when a request settles. -/
structure RequestRecord where
  timestamp : Int
  success : Bool
  deriving DecidableEq, Repr

/-- `PendingRequest` from `RateLimiter.ts`.  The promise a caller attaches
to is identified by a numeric id (`promiseId`); callers attached to the
same id observe the same outcome. -/
structure PendingRequest where
  promiseId : Nat
  timestamp : Int
  deriving DecidableEq, Repr

/-- The mutable private fields of class `RateLimiter`. -/
structure RateLimiterState where
  requestHistory : List RequestRecord
  pendingRequests : List (String × PendingRequest)
  circuitOpen : Bool
  circuitOpenedAt : Int
  consecutiveErrors : Nat
  deriving DecidableEq, Repr

/-- Fresh limiter state (the field initializers of class `RateLimiter`). -/
def initialRLState : RateLimiterState :=
  { requestHistory := []
    pendingRequests := []
    circuitOpen := false
    circuitOpenedAt := 0
    consecutiveErrors := 0 }

/-- JS `Map.set`: replace the entry for `k` if present, else append. -/
def mapSet (l : List (String × PendingRequest)) (k : String) (v : PendingRequest) :
    List (String × PendingRequest) :=
  if l.any (fun e => e.1 == k) then
    l.map (fun e => if e.1 == k then (k, v) else e)
  else l ++ [(k, v)]

/-- JS `Map.delete`. -/
def mapDel (l : List (String × PendingRequest)) (k : String) :
    List (String × PendingRequest) :=
  l.filter (fun e => !(e.1 == k))

/-! ## RateLimiter.ts: operations -/

/-- The history-pruning step at the top of `checkRateLimits`:
`this.requestHistory.filter((r) => now - r.timestamp < 60000)`. -/
def pruneHistory (h : List RequestRecord) (now : Int) : List RequestRecord :=
  h.filter (fun r => now - r.timestamp < 60000)

/-- Models `list.sort((a, b) => a.timestamp - b.timestamp)[0]?.timestamp`:
the minimal timestamp of the list (the sort is ascending by timestamp, so
element `[0]` carries the minimal timestamp; only its timestamp is read). -/
def oldestTimestamp (l : List RequestRecord) : Option Int :=
  l.foldl
    (fun acc r =>
      match acc with
      | none => some r.timestamp
      | some t => some (min t r.timestamp))
    none

/-- Result of `checkRateLimits`. -/
structure RateCheck where
  allowed : Bool
  retryAfterMs : Option Int
  deriving DecidableEq, Repr

/-- `RateLimiter.checkRateLimits` (lines 47-88): prune history to the last
60s, then test the per-second and per-minute windows.  The in-place
`sort` in the per-minute branch only reorders the retained history; no
observation made of the history (counts, minima, membership) depends on
its order, so the retained history is kept unsorted here. -/
def checkRateLimits (cfg : RateLimiterConfig) (st : RateLimiterState) (now : Int) :
    RateLimiterState × RateCheck :=
  let hist := pruneHistory st.requestHistory now
  let lastSecond := hist.filter (fun r => now - r.timestamp < 1000)
  if lastSecond.length ≥ cfg.maxRequestsPerSecond then
    ({ st with requestHistory := hist },
      { allowed := false
        retryAfterMs := some
          (match oldestTimestamp lastSecond with
           | some t => 1000 - (now - t)
           | none => 100) })
  else if hist.length ≥ cfg.maxRequestsPerMinute then
    ({ st with requestHistory := hist },
      { allowed := false
        retryAfterMs := some
          (match oldestTimestamp hist with
           | some t => 60000 - (now - t)
           | none => 1000) })
  else
    ({ st with requestHistory := hist }, { allowed := true, retryAfterMs := none })

/-- `RateLimiter.checkCircuitBreaker` (lines 93-105): `true` means the
call may proceed; an open circuit past its cool-down is lazily closed and
the consecutive-error count cleared. -/
def checkCircuitBreaker (cfg : RateLimiterConfig) (st : RateLimiterState) (now : Int) :
    RateLimiterState × Bool :=
  if !st.circuitOpen then (st, true)
  else if now - st.circuitOpenedAt ≥ cfg.circuitBreakerResetMs then
    ({ st with circuitOpen := false, consecutiveErrors := 0 }, true)
  else (st, false)

/-- `RateLimiter.recordSuccess` (lines 110-113). -/
def recordSuccess (st : RateLimiterState) (now : Int) : RateLimiterState :=
  { st with
    requestHistory := st.requestHistory ++ [{ timestamp := now, success := true }]
    consecutiveErrors := 0 }

/-- `RateLimiter.recordError` (lines 118-129): push a failure sample,
bump the consecutive-error count, and open the circuit (stamping
`circuitOpenedAt`) once the count reaches the threshold. -/
def recordError (cfg : RateLimiterConfig) (st : RateLimiterState) (now : Int) :
    RateLimiterState :=
  let st' := { st with
    requestHistory := st.requestHistory ++ [{ timestamp := now, success := false }]
    consecutiveErrors := st.consecutiveErrors + 1 }
  if st'.consecutiveErrors ≥ cfg.circuitBreakerThreshold then
    { st' with circuitOpen := true, circuitOpenedAt := now }
  else st'

/-- Decision taken by the synchronous prefix of `RateLimiter.execute`:
fail fast with the circuit-open error (carrying the retry-after hint),
attach to an in-flight promise, wait `waitMs` and re-enter `execute`, or
launch the underlying operation as a fresh promise.  Only `launch`
invokes the caller-supplied `requestFn`. -/
inductive ExecDecision where
  | circuitOpenErr (retryAfterMs : Int)
  | attach (promiseId : Nat)
  | waitRetry (waitMs : Int)
  | launch (promiseId : Nat)
  deriving DecidableEq, Repr

/-- The synchronous prefix of `RateLimiter.execute` (lines 136-179):
circuit-breaker check, in-flight dedup check, rate-limit check, then
launch (registering the fresh promise under `key`).  `freshId` names the
promise a launch would create.  The JS `retryAfterMs || 100` treats `0`
as falsy, hence the explicit zero test. -/
def executeStep (cfg : RateLimiterConfig) (st : RateLimiterState) (key : String)
    (now : Int) (freshId : Nat) : ExecDecision × RateLimiterState :=
  match checkCircuitBreaker cfg st now with
  | (st1, false) =>
    (.circuitOpenErr (cfg.circuitBreakerResetMs - (now - st1.circuitOpenedAt)), st1)
  | (st1, true) =>
    let proceed : RateLimiterState → ExecDecision × RateLimiterState := fun s =>
      let (st2, rc) := checkRateLimits cfg s now
      if rc.allowed then
        (.launch freshId,
          { st2 with
            pendingRequests := mapSet st2.pendingRequests key ⟨freshId, now⟩ })
      else
        (.waitRetry
          (match rc.retryAfterMs with
           | none => 100
           | some v => if v == 0 then 100 else v), st2)
    match st1.pendingRequests.lookup key with
    | some p =>
      if now - p.timestamp < cfg.requestTimeoutMs then (.attach p.promiseId, st1)
      else proceed st1
    | none => proceed st1

/-! ## RateLimiter.ts: trace semantics for the admission claim -/

/-- An observable event at the limiter: an `execute` call reaching its
synchronous prefix, or a previously launched call settling (which runs
`recordSuccess`/`recordError` and deletes the pending entry, as in the
`.then`/`.catch` continuations of lines 165-175). -/
inductive RLEvent where
  | exec (key : String) (now : Int) (freshId : Nat)
  | settle (key : String) (now : Int) (success : Bool)
  deriving DecidableEq, Repr

/-- One event step; returns the new state and, for an `exec` event that
launched the underlying operation, the admission time. -/
def rlStep (cfg : RateLimiterConfig) (st : RateLimiterState) (e : RLEvent) :
    RateLimiterState × Option Int :=
  match e with
  | .exec k now fid =>
    let (d, st') := executeStep cfg st k now fid
    (st', match d with | .launch _ => some now | _ => none)
  | .settle k now success =>
    let st' := if success then recordSuccess st now else recordError cfg st now
    ({ st' with pendingRequests := mapDel st'.pendingRequests k }, none)

/-- Run a list of events from the fresh limiter; collect the admission
times (times at which the underlying operation was actually started). -/
def rlRun (cfg : RateLimiterConfig) (events : List RLEvent) :
    RateLimiterState × List Int :=
  events.foldl
    (fun acc e =>
      let (st', t?) := rlStep cfg acc.1 e
      (st', match t? with | some t => acc.2 ++ [t] | none => acc.2))
    (initialRLState, [])

/-- Number of admission times falling in the trailing window `(t-w, t]`. -/
def countAdmitted (ts : List Int) (t w : Int) : Nat :=
  (ts.filter (fun x => t - w < x && x ≤ t)).length

/-- Claim C2 as stated by the spec (the definition follows the spec's
words, to be compared with the code): in every trace, the number of calls
the coordinator admitted within any trailing 1s interval is at most
`maxRequestsPerSecond`, and within any trailing 60s interval at most
`maxRequestsPerMinute`. -/
def admissionBoundClaim (cfg : RateLimiterConfig) : Prop :=
  ∀ (events : List RLEvent) (t : Int),
    countAdmitted (rlRun cfg events).2 t 1000 ≤ cfg.maxRequestsPerSecond ∧
    countAdmitted (rlRun cfg events).2 t 60000 ≤ cfg.maxRequestsPerMinute

/-- The spec-side reading of the oldest sample of a window: the minimal
timestamp among the window's records. -/
def minTimestamp : List RequestRecord → Option Int
  | [] => none
  | r :: rs => some (rs.foldl (fun m x => min m x.timestamp) r.timestamp)

/-! ## migration.ts: data model -/

/-- JS `String.prototype.includes` on explicit character lists:
`chBegins pat s` is `s` starting with `pat`. -/
def chBegins : List Char → List Char → Bool
  | [], _ => true
  | _ :: _, [] => false
  | p :: ps, c :: cs => p == c && chBegins ps cs

/-- `chHas pat s`: some suffix of `s` starts with `pat`. -/
def chHas (pat : List Char) : List Char → Bool
  | [] => pat.isEmpty
  | c :: cs => chBegins pat (c :: cs) || chHas pat cs

/-- JS `s.includes(pat)`. -/
def strIncludes (s pat : String) : Bool := chHas pat.data s.data

/-- JS `s.startsWith(pre)`. -/
def strBegins (s pre : String) : Bool := chBegins pre.data s.data

/-- JS falsiness of an optional string (`!track.name`): absent or empty. -/
def optStrFalsy : Option String → Bool
  | none => true
  | some s => s == ""

/-- A track's tag-data record (`TrackData` from `useTagData`, as consumed
by `migration.ts`): `name`/`artists` optional, `bpm` nullable.  Fields of
`TrackData` not read by the migration code are omitted. -/
structure TrackData where
  rating : Int
  energy : Int
  tags : List String
  name : Option String
  artists : Option (List String)
  bpm : Option Int
  deriving DecidableEq, Repr

instance : Inhabited TrackData := ⟨⟨0, 0, [], none, none, none⟩⟩

/-- The tag dataset: `tracks` as an association list in JS object key
order (object keys are unique and iteration follows insertion order). -/
structure TagDataStructure where
  tracks : List (String × TrackData)
  deriving DecidableEq, Repr

/-- `data.tracks[uri]` for a `uri` known to be a key (all uses in
`migration.ts` look up keys obtained from `Object.keys(tracks)`; the
default is unreachable there). -/
def getTrackData (d : TagDataStructure) (uri : String) : TrackData :=
  (d.tracks.lookup uri).getD default

/-- In-place update `data.tracks[uri] = f(data.tracks[uri])`. -/
def updTrack (d : TagDataStructure) (uri : String) (f : TrackData → TrackData) :
    TagDataStructure :=
  ⟨d.tracks.map (fun p => if p.1 == uri then (p.1, f p.2) else p)⟩

/-- `MigrationState` from `migration.ts` with the nested `migrations`
record flattened; an absent (undefined) flag and `false` behave
identically everywhere (`!flag` and assignment to `true`). -/
structure MigrationState where
  version : String
  cleanupEmptyTracks : Bool
  addTrackMetadata : Bool
  removeTrackInfoCache : Bool
  deriving DecidableEq, Repr

/-- `MigrationProgress` from `migration.ts` (persisted checkpoint);
`failedUris` is optional in the stored shape. -/
structure MigrationProgress where
  migrationName : String
  processedUris : List String
  failedUris : Option (List String)
  totalTracks : Nat
  startedAt : Int
  deriving DecidableEq, Repr

/-- The per-record outcome `TrackMigrationResult`, with `updates` as the
explicit partial record built by the per-record effort (a field is `some`
exactly when the corresponding key was assigned on the JS object). -/
structure Updates where
  name : Option String
  artists : Option (List String)
  bpm : Option Int
  deriving DecidableEq, Repr

/-- The empty `updates` object. -/
def Updates.empty : Updates := ⟨none, none, none⟩

/-- `Object.keys(updates).length > 0`. -/
def updatesNonEmpty (u : Updates) : Bool :=
  u.name.isSome || u.artists.isSome || u.bpm.isSome

/-- The spread `{...track, ...updates}`: fields present on `updates`
override the track's. -/
def applyUpdates (u : Updates) (t : TrackData) : TrackData :=
  { t with
    name := if u.name.isSome then u.name else t.name
    artists := if u.artists.isSome then u.artists else t.artists
    bpm := if u.bpm.isSome then u.bpm else t.bpm }

/-- `TrackMigrationResult` from `migration.ts`. -/
structure TrackMigrationResult where
  uri : String
  success : Bool
  updates : Updates
  retryable : Bool
  deriving DecidableEq, Repr

/-- Errors thrown by the metadata fetchers, as inspected by
`isRetryableError` (`error?.status`, `error?.message`). -/
structure FetchError where
  status : Option Int
  message : String
  deriving DecidableEq, Repr

/-- `isRetryableError` (lines 38-47). -/
def isRetryableError (e : FetchError) : Bool :=
  e.status == some 429 ||
  strIncludes e.message "network" || strIncludes e.message "fetch" ||
  strIncludes e.message "timeout"

/-- `isRetryableError(lastError)` where `lastError` may still be `null`. -/
def isRetryableErrorO : Option FetchError → Bool
  | none => false
  | some e => isRetryableError e

/-- `getBackoffDelay` (lines 49-52), with `baseDelay` at its only used
value `1000`: `Math.min(1000 * 2 ** attempt, 30000)`. -/
def getBackoffDelay (attempt : Nat) : Nat :=
  min (1000 * 2 ^ attempt) 30000

/-- `isTrackEmpty` (lines 54-61) on a present record. -/
def isTrackEmpty (t : TrackData) : Bool :=
  t.rating == 0 && t.energy == 0 && t.tags.length == 0

/-- `!track.name || !track.artists` (an empty artists array is truthy in
JS, so only an absent `artists` counts). -/
def needsMetadataOf (t : TrackData) : Bool :=
  optStrFalsy t.name || t.artists.isNone

/-- The cached track info consulted by the cache pass and returned by
`spotifyService.getTrack`. -/
structure TrackInfo where
  name : String
  artists : List String
  deriving DecidableEq, Repr

/-- The external collaborators of the migration, as oracles: the local
track-info cache, and the two fetchers (`spotifyService.getTrack`,
`audioFeaturesService.getBpm`) indexed by the record key and by how many
calls were already made for that key (each call either returns a value,
returns nothing, or throws a `FetchError`). -/
structure MigOracles where
  cache : String → Option TrackInfo
  getTrack : String → Nat → Except FetchError (Option TrackInfo)
  getBpm : String → Nat → Except FetchError (Option Int)

/-- A JS number as used for the adaptive inter-batch delay.  The values
reached are `500 * 1.5^k` capped at `5000`, all exactly representable
floats; multiplication by 1.5 and `Math.min` are exact on them.  They
are kept as an unreduced fraction so concrete runs evaluate inside the
kernel. -/
structure JsNumber where
  num : Nat
  den : Nat
  deriving DecidableEq, Repr

/-- The JS literal `n`. -/
def jsNat (n : Nat) : JsNumber := ⟨n, 1⟩

/-- `Math.min` by value. -/
def jsMin (a b : JsNumber) : JsNumber :=
  if a.num * b.den ≤ b.num * a.den then a else b

/-- Multiplication by the float literal `1.5` (exact). -/
def jsMulThreeHalves (a : JsNumber) : JsNumber := ⟨a.num * 3, a.den * 2⟩

/-- Externally observable writes of the migration subsystem, in program
order: dataset writes (`setTagData`), checkpoint writes
(`saveMigrationProgress`, `none` is deletion), migration-state writes
(`saveMigrationState`), per-track cache removal, removal of the legacy
`tagify:trackInfoCache` key, progress callbacks, inter-batch sleeps, and
the `tagify:dataUpdated` broadcast. -/
inductive MigEffect where
  | setTagData (d : TagDataStructure)
  | saveProgress (p : Option MigrationProgress)
  | saveState (s : MigrationState)
  | removeTrackInfo (uri : String)
  | removeTrackInfoCacheKey
  | progressReport (processed total : Nat)
  | sleepMs (ms : JsNumber)
  | dispatchDataUpdated
  deriving DecidableEq, Repr

/-- Decidable equality of migration results (used to evaluate concrete
runs). -/
instance {a b : Type} [DecidableEq a] [DecidableEq b] : DecidableEq (Except a b) :=
  fun x y =>
    match x, y with
    | .ok u, .ok v =>
      if h : u = v then isTrue (by rw [h]) else isFalse (fun hc => h (Except.ok.inj hc))
    | .error u, .error v =>
      if h : u = v then isTrue (by rw [h])
      else isFalse (fun hc => h (Except.error.inj hc))
    | .ok _, .error _ => isFalse (fun hc => Except.noConfusion hc)
    | .error _, .ok _ => isFalse (fun hc => Except.noConfusion hc)

/-! ## migration.ts: set-as-list helpers (JS `Set` keeps insertion order,
first occurrence wins) -/

/-- `new Set(array)`: keep the first occurrence of each element. -/
def dedupFrom (seen : List String) : List String → List String
  | [] => []
  | x :: xs =>
    if seen.contains x then dedupFrom seen xs
    else x :: dedupFrom (x :: seen) xs

/-- `new Set(array)` as a duplicate-free list. -/
def dedup (l : List String) : List String := dedupFrom [] l

/-- `Set.add`. -/
def setAdd (l : List String) (u : String) : List String :=
  if l.contains u then l else l ++ [u]

/-- `Set.delete`. -/
def setDel (l : List String) (u : String) : List String :=
  l.filter (fun x => !(x == u))

/-! ## migration.ts: addTrackMetadataMigration -/

/-- Target keys of the backfill (lines 137-148): non-local tracks missing
metadata or BPM. -/
def tracksNeedingWork (d : TagDataStructure) : List String :=
  (d.tracks.map (fun p => p.1)).filter (fun uri =>
    if strBegins uri "spotify:local:" then false
    else
      let track := getTrackData d uri
      needsMetadataOf track || track.bpm.isNone)

/-- Progress resumption (lines 158-179): reconstruct the processed/failed
sets from a stored `MigrationProgress` whose `migrationName` matches,
else start fresh (also yielding the progress record the run keeps
updating). -/
def resumeSets (stored : Option MigrationProgress) (targetsLen : Nat) (now : Int) :
    List String × List String × MigrationProgress :=
  match stored with
  | some p =>
    if p.migrationName == "addTrackMetadata" then
      (dedup p.processedUris, dedup (p.failedUris.getD []), p)
    else ([], [], ⟨"addTrackMetadata", [], some [], targetsLen, now⟩)
  | none => ([], [], ⟨"addTrackMetadata", [], some [], targetsLen, now⟩)

/-- Lines 182-184: keep unprocessed keys plus previously failed keys. -/
def remainingTracks (targets processed failed : List String) : List String :=
  targets.filter (fun uri => !(processed.contains uri) || failed.contains uri)

/-- The progress record as persisted by every save site: the current
`processedUris`/`failedUris` arrays over the run's metadata. -/
def mkProg (meta : MigrationProgress) (processed failed : List String) :
    MigrationProgress :=
  { meta with processedUris := processed, failedUris := some failed }

/-- State threaded through the cache pass (lines 189-233). -/
structure CacheAcc where
  data : TagDataStructure
  processed : List String
  failed : List String
  still : List String
  deriving Repr

/-- One iteration of the cache pass: skip keys that failed non-retryably
before, resolve metadata from the cache when possible, and either mark
the key processed or queue it for the network pass. -/
def cachePassStep (o : MigOracles) (st : CacheAcc) (uri : String) : CacheAcc :=
  if st.failed.contains uri && !(st.processed.contains uri) then
    { st with still := st.still ++ [uri] }
  else
    let track := getTrackData st.data uri
    let needsMetadata := needsMetadataOf track
    let needsBpm := track.bpm.isNone
    let resolvedPair :=
      if needsMetadata then
        match o.cache uri with
        | some info =>
          (updTrack st.data uri (fun t =>
            { t with name := some info.name, artists := some info.artists }), true)
        | none => (st.data, false)
      else (st.data, true)
    if !resolvedPair.2 || needsBpm then
      { st with data := resolvedPair.1, still := st.still ++ [uri] }
    else
      { st with
        data := resolvedPair.1
        processed := setAdd st.processed uri
        failed := setDel st.failed uri }

/-- Result of one per-record effort, with its full attempt bookkeeping:
the attempts made, the backoff delays slept between attempts, and the
errors of the failed attempts in order. -/
structure RecordOutcome where
  success : Bool
  updates : Updates
  lastErr : Option FetchError
  attempts : Nat
  delays : List Nat
  errors : List FetchError
  deriving DecidableEq, Repr

/-- One pass through the `try` block of the per-record effort (lines
259-281): fetch metadata if still needed, then BPM if still needed;
assignments made before a throw persist on `updates`.  `tC`/`bC` count
the `getTrack`/`getBpm` calls made so far for this record. -/
def attemptOnce (o : MigOracles) (uri : String) (needsMetadata needsBpm : Bool)
    (u0 : Updates) (tC bC : Nat) : Updates × Option FetchError × Nat × Nat :=
  let metaStep : Updates × Option FetchError × Nat :=
    if needsMetadata && optStrFalsy u0.name then
      match o.getTrack uri tC with
      | .error e => (u0, some e, tC + 1)
      | .ok none => (u0, none, tC + 1)
      | .ok (some info) =>
        ({ u0 with name := some info.name, artists := some info.artists },
          none, tC + 1)
    else (u0, none, tC)
  match metaStep with
  | (u1, some e, tC1) => (u1, some e, tC1, bC)
  | (u1, none, tC1) =>
    if needsBpm && u1.bpm.isNone then
      let trackId := (uri.splitOn ":").getLastD ""
      if trackId == "" then (u1, none, tC1, bC)
      else
        match o.getBpm trackId bC with
        | .error e => (u1, some e, tC1, bC + 1)
        | .ok none => (u1, none, tC1, bC + 1)
        | .ok (some b) => ({ u1 with bpm := some b }, none, tC1, bC + 1)
    else (u1, none, tC1, bC)

/-- The retry loop of the per-record effort (lines 255-296):
`while (retryCount < MAX_RETRIES_PER_TRACK)` with `fuel`
maintaining `retryCount + fuel = MAX_RETRIES_PER_TRACK` at every call
site; a retryable error below the cap sleeps `getBackoffDelay` and
retries, anything else breaks out as a failure. -/
def recordLoop (o : MigOracles) (uri : String) (needsMetadata needsBpm : Bool) :
    Nat → Nat → Updates → Nat → Nat → RecordOutcome
  | 0, _, u, _, _ =>
    { success := false, updates := u, lastErr := none
      attempts := 0, delays := [], errors := [] }
  | fuel + 1, retryCount, u, tC, bC =>
    match attemptOnce o uri needsMetadata needsBpm u tC bC with
    | (u', none, _, _) =>
      { success := true, updates := u', lastErr := none
        attempts := 1, delays := [], errors := [] }
    | (u', some e, tC', bC') =>
      let rc' := retryCount + 1
      if isRetryableError e && rc' < 3 then
        let r := recordLoop o uri needsMetadata needsBpm fuel rc' u' tC' bC'
        { r with
          attempts := r.attempts + 1
          delays := getBackoffDelay rc' :: r.delays
          errors := e :: r.errors }
      else
        { success := false, updates := u', lastErr := some e
          attempts := 1, delays := [], errors := [e] }

/-- The complete per-record effort (the async closure of lines 248-309)
on the working dataset: needs-flags from the current record, then the
retry loop from a fresh `updates` object. -/
def runRecordOutcome (d : TagDataStructure) (o : MigOracles) (uri : String) :
    RecordOutcome :=
  let track := getTrackData d uri
  recordLoop o uri (needsMetadataOf track) track.bpm.isNone 3 0 Updates.empty 0 0

/-- The `TrackMigrationResult` the per-record effort settles with. -/
def runRecordResult (d : TagDataStructure) (o : MigOracles) (uri : String) :
    TrackMigrationResult :=
  let r := runRecordOutcome d o uri
  { uri := uri
    success := r.success
    updates := r.updates
    retryable := if r.success then false else isRetryableErrorO r.lastErr }

/-- State threaded through the settled-results loop of one batch
(lines 314-346); `batchFailures` is the batch-local failure count. -/
structure BatchAcc where
  data : TagDataStructure
  processed : List String
  failed : List String
  consecutiveFailures : Nat
  batchFailures : Nat
  deriving Repr

/-- One settled result (`result.status === "fulfilled"`; the per-record
effort catches all its errors, so every promise fulfills): merge the
updates of a success and mark it processed, queue a retryable failure for
a future run, or permanently skip a terminal failure. -/
def processResult (acc : BatchAcc) (r : TrackMigrationResult) : BatchAcc :=
  if r.success then
    { acc with
      data := if updatesNonEmpty r.updates then
          updTrack acc.data r.uri (applyUpdates r.updates)
        else acc.data
      processed := setAdd acc.processed r.uri
      failed := setDel acc.failed r.uri
      consecutiveFailures := 0 }
  else
    let acc1 := { acc with batchFailures := acc.batchFailures + 1 }
    if r.retryable then { acc1 with failed := setAdd acc1.failed r.uri }
    else
      { acc1 with
        processed := setAdd acc1.processed r.uri
        failed := setDel acc1.failed r.uri }

/-- The settled-results loop over one batch. -/
def processResults (acc : BatchAcc) (rs : List TrackMigrationResult) : BatchAcc :=
  rs.foldl processResult acc

/-- Fixed-size batching of the still-needs-work list (`slice(i, i + 5)`
for `i = 0, 5, ...`), buffer-accumulating, structural in the list. -/
def chunksGo (sz : Nat) : List String → Nat → List String → List (List String)
  | [], _, buf => if buf.isEmpty then [] else [buf.reverse]
  | x :: xs, k, buf =>
    if k + 1 == sz then (x :: buf).reverse :: chunksGo sz xs 0 []
    else chunksGo sz xs (k + 1) (x :: buf)

/-- The batches of the network pass. -/
def chunks (sz : Nat) (l : List String) : List (List String) := chunksGo sz l 0 []

/-- The message thrown when the migration pauses (lines 369-371). -/
def pauseMsg : String :=
  "Migration paused due to repeated failures. Will retry on next app launch."

/-- State carried across batches of the network pass. -/
structure NetAcc where
  data : TagDataStructure
  processed : List String
  failed : List String
  consecutiveFailures : Nat
  currentDelay : JsNumber
  deriving Repr

/-- The batch loop of the network pass (lines 245-391).  Each batch maps
its keys to concurrently settled per-record efforts, folds the results,
adapts the inter-batch delay (`* 1.5`, capped at 5000, reset to 500 on a
clean batch), pauses the whole migration once the consecutive-failure
count reaches 10 (persisting progress and dataset first), reports and
periodically persists progress, and sleeps between batches.  `i` is the
start index of the current batch, `stillLen` the length of the whole
still-needs-work list. -/
def netLoop (o : MigOracles) (meta : MigrationProgress) (total stillLen : Nat) :
    List (List String) → Nat → NetAcc →
    Except String TagDataStructure × List MigEffect
  | [], _, acc => (.ok acc.data, [.setTagData acc.data, .saveProgress none])
  | batch :: rest, i, acc =>
    let results := batch.map (fun u => runRecordResult acc.data o u)
    let b := processResults
      ⟨acc.data, acc.processed, acc.failed, acc.consecutiveFailures, 0⟩ results
    let cf := if b.batchFailures > 0 then b.consecutiveFailures + b.batchFailures
      else b.consecutiveFailures
    let delay' : JsNumber := if b.batchFailures > 0 then
        jsMin (jsMulThreeHalves acc.currentDelay) (jsNat 5000)
      else jsNat 500
    if cf ≥ 10 then
      (.error pauseMsg,
        [.saveProgress (some (mkProg meta b.processed b.failed)), .setTagData b.data])
    else
      let effProg : List MigEffect := [.progressReport b.processed.length total]
      let effSave : List MigEffect :=
        if i / 5 > 0 && (i / 5) % 10 == 0 then
          [.saveProgress (some (mkProg meta b.processed b.failed)), .setTagData b.data]
        else []
      let effSleep : List MigEffect :=
        if i + 5 < stillLen then [.sleepMs delay'] else []
      let rec' := netLoop o meta total stillLen rest (i + 5)
        ⟨b.data, b.processed, b.failed, cf, delay'⟩
      (rec'.1, effProg ++ effSave ++ effSleep ++ rec'.2)

/-- `addTrackMetadataMigration` (lines 128-409): target selection, resume
from the stored checkpoint, cache pass, then the batched network pass.
Returns the migrated dataset or the thrown pause message, with the
ordered list of external writes. -/
def addTrackMetadataMigration (stored : Option MigrationProgress) (now : Int)
    (o : MigOracles) (currentData : TagDataStructure) :
    Except String TagDataStructure × List MigEffect :=
  let targets := tracksNeedingWork currentData
  if targets.isEmpty then (.ok currentData, [])
  else
    let rs := resumeSets stored targets.length now
    let remaining := remainingTracks targets rs.1 rs.2.1
    let cp := remaining.foldl (cachePassStep o)
      ⟨currentData, rs.1, rs.2.1, []⟩
    let effs0 : List MigEffect :=
      if remaining.length - cp.still.length > 0 then
        [.setTagData cp.data, .saveProgress (some (mkProg rs.2.2 cp.processed cp.failed))]
      else []
    let net := netLoop o rs.2.2 targets.length cp.still.length
      (chunks 5 cp.still) 0 ⟨cp.data, cp.processed, cp.failed, 0, jsNat 500⟩
    (net.1, effs0 ++ net.2)

/-! ## migration.ts: driver -/

/-- `cleanupEmptyTracksMigration` (lines 104-125): drop empty tracks,
returning the cleaned dataset and the uris whose cache entries were
removed along the way. -/
def cleanupEmptyTracksMigration (d : TagDataStructure) :
    TagDataStructure × List String :=
  (⟨d.tracks.filter (fun p => !(isTrackEmpty p.2))⟩,
    (d.tracks.filter (fun p => isTrackEmpty p.2)).map (fun p => p.1))

/-- The tail of `runMigrations` after the metadata migration (lines
461-480): the `removeTrackInfoCache` migration, then the version stamp,
state save and change broadcast when anything changed. -/
def finishMigrations (currentVersion : String) (st : MigrationState)
    (hasChanges : Bool) (effs : List MigEffect) :
    Except String Bool × List MigEffect :=
  let step3 : MigrationState × Bool × List MigEffect :=
    if !st.removeTrackInfoCache then
      ({ st with removeTrackInfoCache := true }, true, [.removeTrackInfoCacheKey])
    else (st, hasChanges, [])
  let st3 := step3.1
  let ch3 := step3.2.1
  if ch3 || !(st3.version == currentVersion) then
    let finalState := { st3 with version := currentVersion }
    (.ok ch3, effs ++ step3.2.2 ++ [.saveState finalState, .dispatchDataUpdated])
  else (.ok ch3, effs ++ step3.2.2)

/-- `runMigrations` (lines 412-481): run the fixed migration sequence
over the stored `MigrationState`, catching only the distinguishable
pause error of the metadata migration (leaving its flag false), and
persisting the updated state plus broadcasting when anything changed.
`currentVersion` is `packageJson.version`. -/
def runMigrations (currentVersion : String) (stored : MigrationState)
    (storedProgress : Option MigrationProgress) (now : Int) (o : MigOracles)
    (currentData : TagDataStructure) : Except String Bool × List MigEffect :=
  if currentData.tracks.isEmpty then (.ok false, [])
  else
    let m1 : TagDataStructure × MigrationState × Bool × List MigEffect :=
      if !stored.cleanupEmptyTracks then
        let c := cleanupEmptyTracksMigration currentData
        (c.1, { stored with cleanupEmptyTracks := true }, true,
          c.2.map MigEffect.removeTrackInfo ++ [.setTagData c.1])
      else (currentData, stored, false, [])
    let d1 := m1.1
    let st1 := m1.2.1
    let ch1 := m1.2.2.1
    let effs1 := m1.2.2.2
    if st1.addTrackMetadata then finishMigrations currentVersion st1 ch1 effs1
    else
      match addTrackMetadataMigration storedProgress now o d1 with
      | (.ok _, effs2) =>
        finishMigrations currentVersion { st1 with addTrackMetadata := true } true
          (effs1 ++ effs2)
      | (.error m, effs2) =>
        if strIncludes m "Migration paused" then
          finishMigrations currentVersion st1 ch1 (effs1 ++ effs2)
        else (.error m, effs1 ++ effs2)

/-- `needsMigrations` (lines 483-490). -/
def needsMigrations (currentVersion : String) (st : MigrationState) : Bool :=
  !(st.version == currentVersion) || !st.cleanupEmptyTracks || !st.addTrackMetadata

/-- Invariant of the per-record retry loop, parameterized by the
remaining fuel and current retry count (`rc + fuel = 3` at every call):
at most `fuel` further attempts; at least one when fuel remains; the
backoff delays are exactly `getBackoffDelay` of each retry count used;
one recorded error per failed attempt; every error that was followed by
another attempt was retryable; and a failure that stopped before
exhausting the fuel stopped on a non-retryable error. -/
def RecordLoopInv (fuel rc : Nat) (R : RecordOutcome) : Prop :=
  R.attempts ≤ fuel ∧
  (1 ≤ fuel → 1 ≤ R.attempts) ∧
  R.delays = (List.range (R.attempts - 1)).map (fun j => getBackoffDelay (rc + 1 + j)) ∧
  R.errors.length = (if R.success then R.attempts - 1 else R.attempts) ∧
  (∀ e ∈ (if R.success then R.errors else R.errors.dropLast),
    isRetryableError e = true) ∧
  (R.success = false → R.attempts < fuel → isRetryableErrorO R.lastErr = false)


/-! ## Helper lemmas -/

theorem checkCircuitBreaker_closed (cfg : RateLimiterConfig) (st : RateLimiterState)
    (now : Int) (h : st.circuitOpen = false) :
    checkCircuitBreaker cfg st now = (st, true) := by
  simp [checkCircuitBreaker, h]

theorem checkCircuitBreaker_requestHistory (cfg : RateLimiterConfig)
    (st : RateLimiterState) (now : Int) :
    ((checkCircuitBreaker cfg st now).1).requestHistory = st.requestHistory := by
  unfold checkCircuitBreaker
  split
  · rfl
  · split <;> rfl

theorem checkRateLimits_allowed_iff (cfg : RateLimiterConfig) (st : RateLimiterState)
    (now : Int) :
    (checkRateLimits cfg st now).2.allowed = true ↔
      ((pruneHistory st.requestHistory now).filter
          (fun r => now - r.timestamp < 1000)).length < cfg.maxRequestsPerSecond ∧
      (pruneHistory st.requestHistory now).length < cfg.maxRequestsPerMinute := by
  unfold checkRateLimits
  by_cases h1 :
      ((pruneHistory st.requestHistory now).filter
        (fun r => now - r.timestamp < 1000)).length ≥ cfg.maxRequestsPerSecond
  · simp [h1, Nat.not_lt_of_ge h1]
  · by_cases h2 : (pruneHistory st.requestHistory now).length ≥ cfg.maxRequestsPerMinute
    · simp [h1, h2, Nat.not_lt_of_ge h2]
    · simp [h1, h2, Nat.lt_of_not_ge h1, Nat.lt_of_not_ge h2]

/-! ## Claim C1: in-flight deduplication -/

/-- C1: while the circuit is closed, an `execute(key, fn2)` arriving when
a previous call on the same key is still pending and started less than
`requestTimeoutMs` ago attaches to that call's promise (so `fn2` is never
invoked: the decision is `attach`, not `launch`) and leaves the limiter
state untouched; every caller attached to the same promise id observes
the same outcome, so per key at most one underlying operation runs per
in-flight window. -/
theorem execute_dedup_attaches (cfg : RateLimiterConfig) (st : RateLimiterState)
    (key : String) (now : Int) (freshId : Nat) (p : PendingRequest)
    (hClosed : st.circuitOpen = false)
    (hPending : st.pendingRequests.lookup key = some p)
    (hFresh : now - p.timestamp < cfg.requestTimeoutMs) :
    executeStep cfg st key now freshId = (.attach p.promiseId, st) := by
  unfold executeStep
  rw [checkCircuitBreaker_closed cfg st now hClosed]
  simp [hPending, hFresh]

/-- Witness for C1 at a concrete pending entry. -/
theorem execute_dedup_attaches_witness :
    ({ initialRLState with pendingRequests := [("k", ⟨7, 100⟩)] } :
        RateLimiterState).circuitOpen = false ∧
    executeStep ⟨20, 1000, 10, 30000, 10000⟩
        { initialRLState with pendingRequests := [("k", ⟨7, 100⟩)] } "k" 200 9 =
      (.attach 7, { initialRLState with pendingRequests := [("k", ⟨7, 100⟩)] }) :=
  ⟨rfl,
    execute_dedup_attaches ⟨20, 1000, 10, 30000, 10000⟩
      { initialRLState with pendingRequests := [("k", ⟨7, 100⟩)] } "k" 200 9 ⟨7, 100⟩
      rfl rfl (by decide)⟩

/-! ## Shape lemmas for the limiter step -/

theorem checkRateLimits_state (cfg : RateLimiterConfig) (st : RateLimiterState)
    (now : Int) :
    (checkRateLimits cfg st now).1 =
      { st with requestHistory := pruneHistory st.requestHistory now } := by
  unfold checkRateLimits
  dsimp only
  split
  · rfl
  · split <;> rfl

theorem checkCircuitBreaker_pending (cfg : RateLimiterConfig)
    (st : RateLimiterState) (now : Int) :
    ((checkCircuitBreaker cfg st now).1).pendingRequests = st.pendingRequests := by
  unfold checkCircuitBreaker
  split
  · rfl
  · split <;> rfl

theorem executeStep_circuit_fields (cfg : RateLimiterConfig) (st : RateLimiterState)
    (key : String) (now : Int) (freshId : Nat) :
    ((executeStep cfg st key now freshId).2).circuitOpen =
        ((checkCircuitBreaker cfg st now).1).circuitOpen ∧
      ((executeStep cfg st key now freshId).2).consecutiveErrors =
        ((checkCircuitBreaker cfg st now).1).consecutiveErrors := by
  unfold executeStep
  cases hcb : checkCircuitBreaker cfg st now with
  | mk st1 ok =>
    cases ok with
    | false => exact ⟨rfl, rfl⟩
    | true =>
      simp only
      have hrl := checkRateLimits_state cfg st1 now
      cases hlk : st1.pendingRequests.lookup key with
      | some p =>
        by_cases ht : now - p.timestamp < cfg.requestTimeoutMs
        · simp [hlk, ht]
        · simp only [hlk, ht, if_false]
          by_cases ha : (checkRateLimits cfg st1 now).2.allowed <;>
            simp [ha, hrl]
      | none =>
        simp only [hlk]
        by_cases ha : (checkRateLimits cfg st1 now).2.allowed <;>
          simp [ha, hrl]

theorem executeStep_no_circuit_err (cfg : RateLimiterConfig) (st : RateLimiterState)
    (key : String) (now : Int) (freshId : Nat)
    (h : (checkCircuitBreaker cfg st now).2 = true) :
    ∀ r, (executeStep cfg st key now freshId).1 ≠ .circuitOpenErr r := by
  intro r
  unfold executeStep
  cases hcb : checkCircuitBreaker cfg st now with
  | mk st1 ok =>
    cases ok with
    | false => rw [hcb] at h; exact absurd h (by simp)
    | true =>
      simp only
      cases hlk : st1.pendingRequests.lookup key with
      | some p =>
        by_cases ht : now - p.timestamp < cfg.requestTimeoutMs
        · simp [hlk, ht]
        · simp only [hlk, ht, if_false]
          by_cases ha : (checkRateLimits cfg st1 now).2.allowed <;> simp [ha]
      | none =>
        simp only [hlk]
        by_cases ha : (checkRateLimits cfg st1 now).2.allowed <;> simp [ha]

/-! ## Claim C3: circuit breaker -/

/-- C3: (i) a failed call that brings the (key-independent) consecutive
error count up to `circuitBreakerThreshold` opens the circuit and stamps
`circuitOpenedAt`; (ii) any `execute` while the circuit is open and less
than `circuitBreakerResetMs` after `circuitOpenedAt` fails immediately
with the circuit-open error carrying the retry-after hint
`circuitBreakerResetMs - (now - circuitOpenedAt)` and never launches its
operation; (iii) an `execute` once the cool-down has elapsed closes the
circuit, clears the consecutive-error count, and is not circuit-rejected
(the reset happens lazily inside the call itself, with no background
timer). -/
theorem circuit_breaker_spec :
    (∀ (cfg : RateLimiterConfig) (st : RateLimiterState) (now : Int),
      cfg.circuitBreakerThreshold ≤ st.consecutiveErrors + 1 →
        (recordError cfg st now).circuitOpen = true ∧
        (recordError cfg st now).circuitOpenedAt = now) ∧
    (∀ (cfg : RateLimiterConfig) (st : RateLimiterState) (key : String) (now : Int)
        (freshId : Nat),
      st.circuitOpen = true → now - st.circuitOpenedAt < cfg.circuitBreakerResetMs →
        executeStep cfg st key now freshId =
          (.circuitOpenErr (cfg.circuitBreakerResetMs - (now - st.circuitOpenedAt)),
            st)) ∧
    (∀ (cfg : RateLimiterConfig) (st : RateLimiterState) (key : String) (now : Int)
        (freshId : Nat),
      st.circuitOpen = true → cfg.circuitBreakerResetMs ≤ now - st.circuitOpenedAt →
        ((executeStep cfg st key now freshId).2.circuitOpen = false ∧
         (executeStep cfg st key now freshId).2.consecutiveErrors = 0 ∧
         ∀ r, (executeStep cfg st key now freshId).1 ≠ .circuitOpenErr r)) := by
  refine ⟨?_, ?_, ?_⟩
  · intro cfg st now h
    unfold recordError
    simp only [ge_iff_le]
    rw [if_pos h]
    exact ⟨rfl, rfl⟩
  · intro cfg st key now freshId hOpen hCool
    unfold executeStep checkCircuitBreaker
    simp [hOpen, Int.not_le.mpr hCool]
  · intro cfg st key now freshId hOpen hElapsed
    have hcb : checkCircuitBreaker cfg st now =
        ({ st with circuitOpen := false, consecutiveErrors := 0 }, true) := by
      unfold checkCircuitBreaker
      simp [hOpen, hElapsed]
    refine ⟨?_, ?_, executeStep_no_circuit_err cfg st key now freshId (by rw [hcb])⟩
    · rw [(executeStep_circuit_fields cfg st key now freshId).1, hcb]
    · rw [(executeStep_circuit_fields cfg st key now freshId).2, hcb]

/-- Witness for C3: threshold 3 reached on the third error opens the
circuit at the error's time; a call 10s later is rejected with a 20s
retry hint; a call 30s later closes the circuit again. -/
theorem circuit_breaker_spec_witness :
    ((recordError ⟨20, 1000, 3, 30000, 10000⟩
        { initialRLState with consecutiveErrors := 2 } 50).circuitOpen = true ∧
      (recordError ⟨20, 1000, 3, 30000, 10000⟩
        { initialRLState with consecutiveErrors := 2 } 50).circuitOpenedAt = 50) ∧
    executeStep ⟨20, 1000, 3, 30000, 10000⟩
        { initialRLState with circuitOpen := true, circuitOpenedAt := 50 }
        "k" 10050 0 =
      (.circuitOpenErr 20000,
        { initialRLState with circuitOpen := true, circuitOpenedAt := 50 }) ∧
    (executeStep ⟨20, 1000, 3, 30000, 10000⟩
        { initialRLState with circuitOpen := true, circuitOpenedAt := 50 }
        "k" 30050 0).2.circuitOpen = false := by
  refine ⟨?_, ?_, ?_⟩
  · exact circuit_breaker_spec.1 ⟨20, 1000, 3, 30000, 10000⟩
      { initialRLState with consecutiveErrors := 2 } 50 (by decide)
  · have := circuit_breaker_spec.2.1 ⟨20, 1000, 3, 30000, 10000⟩
      { initialRLState with circuitOpen := true, circuitOpenedAt := 50 }
      "k" 10050 0 rfl (by decide)
    simpa using this
  · exact (circuit_breaker_spec.2.2 ⟨20, 1000, 3, 30000, 10000⟩
      { initialRLState with circuitOpen := true, circuitOpenedAt := 50 }
      "k" 30050 0 rfl (by decide)).1

/-! ## Claim C2: admission bounds -/

/-- Counterexample to C2 as stated: with `maxRequestsPerSecond = 1`, two
`execute` calls on distinct keys at the same instant are both admitted
(both launch their underlying operation), because the rate-limit check
counts only settled calls (`recordSuccess`/`recordError` run in the
promise continuations), and neither call has settled yet.  Two
admissions fall in the trailing 1s window, exceeding the limit of 1. -/
theorem admission_bound_counterexample :
    ¬ admissionBoundClaim ⟨1, 1000, 10, 30000, 10000⟩ := by
  intro h
  have h2 := (h [.exec "a" 0 0, .exec "b" 0 1] 0).1
  revert h2
  decide

/-- C2 amended: whenever the synchronous prefix of `execute` admits a
call (launches the underlying operation), the pruned history of settled
calls has strictly fewer than `maxRequestsPerSecond` samples in the
trailing 1s window and strictly fewer than `maxRequestsPerMinute`
samples in the trailing 60s window.  Samples are appended only when a
call settles, so this bounds recorded settled samples at admission time,
not the number of started operations in a trailing interval. -/
theorem admission_checks_settled_history (cfg : RateLimiterConfig)
    (st : RateLimiterState) (key : String) (now : Int) (freshId : Nat)
    (h : (executeStep cfg st key now freshId).1 = .launch freshId) :
    ((pruneHistory st.requestHistory now).filter
        (fun r => now - r.timestamp < 1000)).length < cfg.maxRequestsPerSecond ∧
      (pruneHistory st.requestHistory now).length < cfg.maxRequestsPerMinute := by
  have main : ∀ st1 : RateLimiterState,
      st1.requestHistory = st.requestHistory →
      ((if (checkRateLimits cfg st1 now).2.allowed then
          (ExecDecision.launch freshId,
            { (checkRateLimits cfg st1 now).1 with
              pendingRequests :=
                mapSet ((checkRateLimits cfg st1 now).1).pendingRequests key
                  ⟨freshId, now⟩ })
        else
          (.waitRetry
            (match (checkRateLimits cfg st1 now).2.retryAfterMs with
             | none => 100
             | some v => if v == 0 then 100 else v),
            (checkRateLimits cfg st1 now).1)).1 = .launch freshId) →
      ((pruneHistory st.requestHistory now).filter
          (fun r => now - r.timestamp < 1000)).length < cfg.maxRequestsPerSecond ∧
        (pruneHistory st.requestHistory now).length < cfg.maxRequestsPerMinute := by
    intro st1 hHist hLaunch
    by_cases ha : (checkRateLimits cfg st1 now).2.allowed
    · have := (checkRateLimits_allowed_iff cfg st1 now).mp ha
      rwa [hHist] at this
    · rw [if_neg ha] at hLaunch
      exact absurd hLaunch (by simp)
  revert h
  unfold executeStep
  cases hcb : checkCircuitBreaker cfg st now with
  | mk st1 ok =>
    have hHist : st1.requestHistory = st.requestHistory := by
      have := checkCircuitBreaker_requestHistory cfg st now
      rw [hcb] at this
      exact this
    cases ok with
    | false => intro h; exact absurd h (by simp)
    | true =>
      simp only
      cases hlk : st1.pendingRequests.lookup key with
      | some p =>
        by_cases ht : now - p.timestamp < cfg.requestTimeoutMs
        · simp only [hlk, ht, if_true]
          intro h
          exact absurd h (by simp)
        · simp only [hlk, ht, if_false]
          exact main st1 hHist
      | none =>
        simp only [hlk]
        exact main st1 hHist

/-- Witness for the amended C2: on a fresh limiter an `execute` launches
and both window counts (zero) are below the default limits. -/
theorem admission_checks_settled_history_witness :
    (executeStep ⟨20, 1000, 10, 30000, 10000⟩ initialRLState "k" 0 0).1 =
        .launch 0 ∧
    ((pruneHistory initialRLState.requestHistory 0).filter
        (fun r => (0 : Int) - r.timestamp < 1000)).length < 20 ∧
      (pruneHistory initialRLState.requestHistory 0).length < 1000 :=
  ⟨by decide,
    admission_checks_settled_history ⟨20, 1000, 10, 30000, 10000⟩ initialRLState
      "k" 0 0 (by decide)⟩

/-! ## Claim C4: the rate-limit check -/

theorem foldl_min_some (l : List RequestRecord) :
    ∀ a : Int,
      l.foldl
        (fun acc r =>
          match acc with
          | none => some r.timestamp
          | some t => some (min t r.timestamp))
        (some a) =
      some (l.foldl (fun m x => min m x.timestamp) a) := by
  induction l with
  | nil => intro a; rfl
  | cons r rs ih => intro a; simpa using ih (min a r.timestamp)

theorem oldestTimestamp_eq_minTimestamp (l : List RequestRecord) :
    oldestTimestamp l = minTimestamp l := by
  cases l with
  | nil => rfl
  | cons r rs =>
    show rs.foldl _ (some r.timestamp) = _
    rw [foldl_min_some rs r.timestamp]
    rfl

theorem foldl_min_bounds (l : List RequestRecord) :
    ∀ a : Int,
      ((l.foldl (fun m x => min m x.timestamp) a) = a ∨
        ∃ r ∈ l, (l.foldl (fun m x => min m x.timestamp) a) = r.timestamp) ∧
      (l.foldl (fun m x => min m x.timestamp) a) ≤ a ∧
      ∀ r ∈ l, (l.foldl (fun m x => min m x.timestamp) a) ≤ r.timestamp := by
  induction l with
  | nil => intro a; exact ⟨Or.inl rfl, le_refl a, by simp⟩
  | cons x xs ih =>
    intro a
    have h := ih (min a x.timestamp)
    simp only [List.foldl_cons]
    refine ⟨?_, ?_, ?_⟩
    · rcases h.1 with h1 | ⟨r, hr, hr2⟩
      · rcases le_or_lt a x.timestamp with hax | hax
        · exact Or.inl (by rw [h1]; exact min_eq_left hax)
        · exact Or.inr ⟨x, List.mem_cons_self x xs,
            by rw [h1]; exact min_eq_right (le_of_lt hax)⟩
      · exact Or.inr ⟨r, List.mem_cons_of_mem x hr, hr2⟩
    · exact le_trans h.2.1 (min_le_left a x.timestamp)
    · intro r hr
      rcases List.mem_cons.mp hr with h1 | h1
      · rw [h1]; exact le_trans h.2.1 (min_le_right a x.timestamp)
      · exact h.2.2 r h1

/-- C4: `checkRateLimits` (i) retains no history entry 60s or older;
(ii) returns not-allowed exactly when the count of retained entries in
the last 1s reaches `maxRequestsPerSecond` or the count in the last 60s
reaches `maxRequestsPerMinute`; (iii) on a per-second violation the wait
time is the time until the oldest sample of the 1s window leaves that
window (`(t+1000) - now`), with fallback 100; (iv) on a per-minute
violation (with the per-second window below limit) it is the time until
the oldest retained sample leaves the 60s window, with fallback 1000;
(v) `minTimestamp` indeed yields the oldest sample: a timestamp attained
in the window and below all of its timestamps. -/
theorem rate_limit_check_spec :
    (∀ (cfg : RateLimiterConfig) (st : RateLimiterState) (now : Int),
      ∀ r ∈ ((checkRateLimits cfg st now).1).requestHistory,
        now - r.timestamp < 60000) ∧
    (∀ (cfg : RateLimiterConfig) (st : RateLimiterState) (now : Int),
      (checkRateLimits cfg st now).2.allowed = false ↔
        cfg.maxRequestsPerSecond ≤
            ((pruneHistory st.requestHistory now).filter
              (fun r => now - r.timestamp < 1000)).length ∨
          cfg.maxRequestsPerMinute ≤ (pruneHistory st.requestHistory now).length) ∧
    (∀ (cfg : RateLimiterConfig) (st : RateLimiterState) (now : Int),
      cfg.maxRequestsPerSecond ≤
          ((pruneHistory st.requestHistory now).filter
            (fun r => now - r.timestamp < 1000)).length →
        (checkRateLimits cfg st now).2.retryAfterMs =
          some
            (match
              minTimestamp ((pruneHistory st.requestHistory now).filter
                (fun r => now - r.timestamp < 1000)) with
             | some t => (t + 1000) - now
             | none => 100)) ∧
    (∀ (cfg : RateLimiterConfig) (st : RateLimiterState) (now : Int),
      ((pruneHistory st.requestHistory now).filter
          (fun r => now - r.timestamp < 1000)).length < cfg.maxRequestsPerSecond →
      cfg.maxRequestsPerMinute ≤ (pruneHistory st.requestHistory now).length →
        (checkRateLimits cfg st now).2.retryAfterMs =
          some
            (match minTimestamp (pruneHistory st.requestHistory now) with
             | some t => (t + 60000) - now
             | none => 1000)) ∧
    (∀ (l : List RequestRecord) (t : Int), minTimestamp l = some t →
      (∃ r ∈ l, r.timestamp = t) ∧ ∀ r ∈ l, t ≤ r.timestamp) := by
  have hmatch1 : ∀ (w : List RequestRecord) (now : Int),
      (match oldestTimestamp w with
       | some t => 1000 - (now - t)
       | none => (100 : Int)) =
      (match minTimestamp w with
       | some t => (t + 1000) - now
       | none => 100) := by
    intro w now
    rw [oldestTimestamp_eq_minTimestamp]
    cases minTimestamp w with
    | none => rfl
    | some t => show 1000 - (now - t) = (t + 1000) - now; ring
  have hmatch2 : ∀ (w : List RequestRecord) (now : Int),
      (match oldestTimestamp w with
       | some t => 60000 - (now - t)
       | none => (1000 : Int)) =
      (match minTimestamp w with
       | some t => (t + 60000) - now
       | none => 1000) := by
    intro w now
    rw [oldestTimestamp_eq_minTimestamp]
    cases minTimestamp w with
    | none => rfl
    | some t => show 60000 - (now - t) = (t + 60000) - now; ring
  refine ⟨?_, ?_, ?_, ?_, ?_⟩
  · intro cfg st now r hr
    rw [checkRateLimits_state] at hr
    exact of_decide_eq_true (List.mem_filter.mp hr).2
  · intro cfg st now
    have h := checkRateLimits_allowed_iff cfg st now
    constructor
    · intro hfalse
      by_contra hcon
      push_neg at hcon
      have := h.mpr ⟨Nat.lt_of_not_ge (fun hge => absurd hge (by omega)),
        Nat.lt_of_not_ge (fun hge => absurd hge (by omega))⟩
      rw [hfalse] at this
      exact Bool.false_ne_true this
    · intro hor
      cases hb : (checkRateLimits cfg st now).2.allowed
      · rfl
      · have := h.mp hb
        omega
  · intro cfg st now h1
    unfold checkRateLimits
    dsimp only
    rw [if_pos h1]
    simpa using hmatch1 _ now
  · intro cfg st now h1 h2
    unfold checkRateLimits
    dsimp only
    rw [if_neg (Nat.not_le_of_lt h1), if_pos h2]
    simpa using hmatch2 _ now
  · intro l t hl
    cases l with
    | nil => exact absurd hl (by simp [minTimestamp])
    | cons r rs =>
      have hb := foldl_min_bounds rs r.timestamp
      have ht : rs.foldl (fun m x => min m x.timestamp) r.timestamp = t := by
        simpa [minTimestamp] using hl
      rw [ht] at hb
      refine ⟨?_, ?_⟩
      · rcases hb.1 with h1 | ⟨x, hx, hx2⟩
        · exact ⟨r, List.mem_cons_self r rs, h1.symm⟩
        · exact ⟨x, List.mem_cons_of_mem r hx, hx2.symm⟩
      · intro x hx
        rcases List.mem_cons.mp hx with h1 | h1
        · rw [h1]; exact hb.2.1
        · exact hb.2.2 x h1

/-- Witness for C4 on a concrete history: three samples, one stale; the
per-second window holds two, hitting the limit of 2, so the check
rejects with wait `(-500 + 1000) - 0 = 500`. -/
theorem rate_limit_check_spec_witness :
    ((2 : Nat) ≤
      ((pruneHistory [⟨-70000, true⟩, ⟨-500, true⟩, ⟨-200, false⟩] 0).filter
        (fun r => (0 : Int) - r.timestamp < 1000)).length) ∧
    (checkRateLimits ⟨2, 1000, 10, 30000, 10000⟩
        { initialRLState with
          requestHistory := [⟨-70000, true⟩, ⟨-500, true⟩, ⟨-200, false⟩] }
        0).2.retryAfterMs = some 500 := by
  refine ⟨by decide, ?_⟩
  have := rate_limit_check_spec.2.2.1 ⟨2, 1000, 10, 30000, 10000⟩
    { initialRLState with
      requestHistory := [⟨-70000, true⟩, ⟨-500, true⟩, ⟨-200, false⟩] }
    0 (by decide)
  rw [this]
  decide

/-! ## Claim C10: needsMigrations -/

/-- C10: `needsMigrations` is true exactly when the stored version
differs from the running version, or the `cleanupEmptyTracks` flag is
unset, or the `addTrackMetadata` flag is unset; it never inspects the
`removeTrackInfoCache` flag, so a state whose only pending migration is
the third one reports that no migrations are needed. -/
theorem needsMigrations_spec :
    (∀ (cv : String) (st : MigrationState),
      needsMigrations cv st =
        (!(st.version == cv) || !st.cleanupEmptyTracks || !st.addTrackMetadata)) ∧
    (∀ (cv : String) (st : MigrationState) (b : Bool),
      needsMigrations cv { st with removeTrackInfoCache := b } =
        needsMigrations cv st) ∧
    (∀ cv : String,
      needsMigrations cv ⟨cv, true, true, false⟩ = false) := by
  refine ⟨fun cv st => rfl, fun cv st b => rfl, fun cv => ?_⟩
  simp [needsMigrations]

/-! ## Claim C9: the driver is idempotent once complete -/

/-- C9: a `runMigrations` call on a stored state whose three migration
flags are durably true and whose version stamp equals the running
version returns `changed = false` and performs no external write at all:
no dataset write, no checkpoint or state save, no flag flip, and no
dataset-changed broadcast (the effect trace is empty). -/
theorem rerun_is_noop (v : String) (prog : Option MigrationProgress) (now : Int)
    (o : MigOracles) (d : TagDataStructure) :
    runMigrations v ⟨v, true, true, true⟩ prog now o d = (.ok false, []) := by
  unfold runMigrations finishMigrations
  by_cases h : d.tracks.isEmpty <;> simp [h]

/-! ## Claim C8: resume reconstruction and the remaining set -/

theorem mem_dedupFrom (l : List String) :
    ∀ (seen : List String) (x : String),
      x ∈ dedupFrom seen l ↔ x ∈ l ∧ x ∉ seen := by
  induction l with
  | nil => intro seen x; simp [dedupFrom]
  | cons y ys ih =>
    intro seen x
    by_cases hy : seen.contains y
    · rw [dedupFrom, if_pos hy, ih]
      constructor
      · exact fun h => ⟨List.mem_cons_of_mem y h.1, h.2⟩
      · rintro ⟨h1, h2⟩
        rcases List.mem_cons.mp h1 with rfl | h1
        · exact absurd (List.mem_of_elem_eq_true hy) h2
        · exact ⟨h1, h2⟩
    · rw [dedupFrom, if_neg hy]
      constructor
      · intro h
        rcases List.mem_cons.mp h with rfl | h
        · refine ⟨List.mem_cons_self x ys, fun hc => hy ?_⟩
          exact List.elem_eq_true_of_mem hc
        · have := (ih (y :: seen) x).mp h
          exact ⟨List.mem_cons_of_mem y this.1,
            fun hc => this.2 (List.mem_cons_of_mem y hc)⟩
      · rintro ⟨h1, h2⟩
        rcases List.mem_cons.mp h1 with rfl | h1
        · exact List.mem_cons_self x _
        · by_cases hxy : x = y
          · subst hxy; exact List.mem_cons_self x _
          · exact List.mem_cons_of_mem y ((ih (y :: seen) x).mpr
              ⟨h1, fun hc => (List.mem_cons.mp hc).elim hxy h2⟩)

theorem mem_dedup (l : List String) (x : String) : x ∈ dedup l ↔ x ∈ l := by
  rw [dedup, mem_dedupFrom]
  simp

theorem contains_eq_true_iff (l : List String) (x : String) :
    l.contains x = true ↔ x ∈ l :=
  ⟨List.mem_of_elem_eq_true, List.elem_eq_true_of_mem⟩

theorem mem_remainingTracks (targets processed failed : List String) (u : String) :
    u ∈ remainingTracks targets processed failed ↔
      u ∈ targets ∧ (u ∉ processed ∨ u ∈ failed) := by
  rw [remainingTracks, List.mem_filter]
  constructor
  · rintro ⟨h1, h2⟩
    refine ⟨h1, ?_⟩
    rcases Bool.or_eq_true_iff.mp h2 with h | h
    · left
      intro hc
      rw [(contains_eq_true_iff processed u).mpr hc] at h
      simp at h
    · exact Or.inr ((contains_eq_true_iff failed u).mp h)
  · rintro ⟨h1, h2⟩
    refine ⟨h1, Bool.or_eq_true_iff.mpr ?_⟩
    rcases h2 with h | h
    · left
      cases hc : processed.contains u
      · rfl
      · exact absurd ((contains_eq_true_iff processed u).mp hc) h
    · exact Or.inr ((contains_eq_true_iff failed u).mpr h)

/-- C8: when a stored `MigrationProgress` carries the name
`addTrackMetadata`, the processed and failed sets are reconstructed from
its arrays (same membership), and the keys the run works on are exactly
`(targets \ processed) ∪ (targets ∩ failed)`: already-processed keys
are worked on only if also marked failed, previously failed keys are
retried. -/
theorem resume_remaining_spec (p : MigrationProgress) (targetsLen : Nat) (now : Int)
    (targets : List String) (u : String)
    (hname : p.migrationName = "addTrackMetadata") :
    (∀ x, x ∈ (resumeSets (some p) targetsLen now).1 ↔ x ∈ p.processedUris) ∧
    (∀ x, x ∈ (resumeSets (some p) targetsLen now).2.1 ↔
      x ∈ p.failedUris.getD []) ∧
    (u ∈ remainingTracks targets (resumeSets (some p) targetsLen now).1
        (resumeSets (some p) targetsLen now).2.1 ↔
      ((u ∈ targets ∧ u ∉ (resumeSets (some p) targetsLen now).1) ∨
        (u ∈ targets ∧ u ∈ (resumeSets (some p) targetsLen now).2.1))) := by
  have hres : resumeSets (some p) targetsLen now =
      (dedup p.processedUris, dedup (p.failedUris.getD []), p) := by
    unfold resumeSets
    dsimp only
    rw [if_pos (by simp [hname])]
  refine ⟨?_, ?_, ?_⟩
  · intro x; rw [hres]; exact mem_dedup _ x
  · intro x; rw [hres]; exact mem_dedup _ x
  · rw [mem_remainingTracks]
    constructor
    · rintro ⟨h1, h2⟩
      rcases h2 with h | h
      · exact Or.inl ⟨h1, h⟩
      · exact Or.inr ⟨h1, h⟩
    · rintro (⟨h1, h2⟩ | ⟨h1, h2⟩)
      · exact ⟨h1, Or.inl h2⟩
      · exact ⟨h1, Or.inr h2⟩

/-- Witness for C8: a stored checkpoint with a duplicated processed key
and one failed key; `"c"` (failed) and `"d"` (unprocessed) are worked
on, `"a"` and `"b"` are not. -/
theorem resume_remaining_spec_witness :
    (⟨"addTrackMetadata", ["a", "a", "b"], some ["c"], 5, 7⟩ :
        MigrationProgress).migrationName = "addTrackMetadata" ∧
    ("a" ∈ (resumeSets (some ⟨"addTrackMetadata", ["a", "a", "b"], some ["c"], 5, 7⟩)
        9 0).1 ↔
      "a" ∈ (["a", "a", "b"] : List String)) ∧
    ("c" ∈ remainingTracks ["a", "b", "c", "d"]
        (resumeSets (some ⟨"addTrackMetadata", ["a", "a", "b"], some ["c"], 5, 7⟩)
          9 0).1
        (resumeSets (some ⟨"addTrackMetadata", ["a", "a", "b"], some ["c"], 5, 7⟩)
          9 0).2.1 ↔
      (("c" ∈ (["a", "b", "c", "d"] : List String) ∧
          "c" ∉ (resumeSets
            (some ⟨"addTrackMetadata", ["a", "a", "b"], some ["c"], 5, 7⟩) 9 0).1) ∨
        ("c" ∈ (["a", "b", "c", "d"] : List String) ∧
          "c" ∈ (resumeSets
            (some ⟨"addTrackMetadata", ["a", "a", "b"], some ["c"], 5, 7⟩) 9 0).2.1))) :=
  ⟨rfl,
    (resume_remaining_spec ⟨"addTrackMetadata", ["a", "a", "b"], some ["c"], 5, 7⟩
      9 0 ["a", "b", "c", "d"] "c" rfl).1 "a",
    (resume_remaining_spec ⟨"addTrackMetadata", ["a", "a", "b"], some ["c"], 5, 7⟩
      9 0 ["a", "b", "c", "d"] "c" rfl).2.2⟩

/-! ## Claim C7: per-record retries -/

theorem dropLast_cons_ne_nil {e : FetchError} {l : List FetchError} (h : l ≠ []) :
    (e :: l).dropLast = e :: l.dropLast := by
  cases l with
  | nil => exact absurd rfl h
  | cons x xs => rfl

theorem recordLoop_inv (o : MigOracles) (uri : String) (nm nb : Bool) :
    ∀ (fuel rc : Nat) (u : Updates) (tC bC : Nat), rc + fuel = 3 →
      RecordLoopInv fuel rc (recordLoop o uri nm nb fuel rc u tC bC) := by
  intro fuel
  induction fuel with
  | zero =>
    intro rc u tC bC h
    exact ⟨le_refl 0, by omega, rfl, rfl, by simp [recordLoop],
      fun _ hlt => absurd hlt (by omega)⟩
  | succ fuel ih =>
    intro rc u tC bC h
    rw [recordLoop]
    cases hA : attemptOnce o uri nm nb u tC bC with
    | mk u' rest =>
      obtain ⟨e?, tC', bC'⟩ := rest
      cases e? with
      | none =>
        dsimp only
        refine ⟨by show (1 : Nat) ≤ fuel + 1; omega, fun _ => le_refl 1, by simp,
          by simp, by simp, fun hs => absurd hs (by simp)⟩
      | some e =>
        dsimp only
        by_cases hcond : (isRetryableError e && decide (rc + 1 < 3)) = true
        · rw [if_pos hcond]
          have hsplit : isRetryableError e = true ∧ rc + 1 < 3 := by
            simpa using hcond
          have hretry : isRetryableError e = true := hsplit.1
          have hrc : rc + 1 < 3 := hsplit.2
          have hfuel : 1 ≤ fuel := by omega
          have h' : (rc + 1) + fuel = 3 := by omega
          have IH := ih (rc + 1) u' tC' bC' h'
          set r := recordLoop o uri nm nb fuel (rc + 1) u' tC' bC' with hr
          obtain ⟨ha, hone, hdel, herr, hretr, hstop⟩ := IH
          have hatt : 1 ≤ r.attempts := hone hfuel
          refine ⟨by simpa using Nat.add_le_add_right ha 1,
            fun _ => by dsimp only; omega, ?_, ?_, ?_, ?_⟩
          · show getBackoffDelay (rc + 1) :: r.delays =
              (List.range (r.attempts + 1 - 1)).map
                (fun j => getBackoffDelay (rc + 1 + j))
            obtain ⟨m, hm⟩ : ∃ m, r.attempts = m + 1 := ⟨r.attempts - 1, by omega⟩
            rw [hdel, hm]
            simp only [Nat.add_sub_cancel, List.range_succ_eq_map, List.map_cons,
              List.map_map]
            have hfun : ((fun j => getBackoffDelay (rc + 1 + j)) ∘ Nat.succ) =
                (fun j => getBackoffDelay (rc + 1 + 1 + j)) := by
              funext j
              simp only [Function.comp_apply]
              congr 1
              omega
            rw [hfun]
          · show (e :: r.errors).length =
              if r.success then r.attempts + 1 - 1 else r.attempts + 1
            rw [List.length_cons, herr]
            cases hsu : r.success <;> simp <;> omega
          · show ∀ x ∈ (if r.success then e :: r.errors
                else (e :: r.errors).dropLast), isRetryableError x = true
            cases hsu : r.success with
            | true =>
              intro x hx
              rcases List.mem_cons.mp hx with rfl | hx
              · exact hretry
              · exact hretr x (by rw [hsu] at hretr ⊢; simpa using hx)
            | false =>
              have hne : r.errors ≠ [] := by
                intro hc
                rw [hc] at herr
                simp [hsu] at herr
                omega
              rw [if_neg (by simp), dropLast_cons_ne_nil hne]
              intro x hx
              rcases List.mem_cons.mp hx with rfl | hx
              · exact hretry
              · refine hretr x ?_
                rw [hsu]
                simpa using hx
          · intro hs hlt
            show isRetryableErrorO r.lastErr = false
            exact hstop hs (by simpa using Nat.lt_of_add_lt_add_right hlt)
        · rw [if_neg hcond]
          refine ⟨by dsimp only; omega, fun _ => le_refl 1, by simp, by simp,
            by simp, ?_⟩
          intro _ hlt
          dsimp only at hlt
          have hfuel : 1 ≤ fuel := by omega
          have hrc : rc + 1 < 3 := by omega
          have : isRetryableError e = false := by
            cases hre : isRetryableError e
            · rfl
            · exact absurd (by rw [hre]; simpa using hrc) hcond
          simpa [isRetryableErrorO] using this

/-- C7: each per-record effort makes at most 3 attempts; every retry was
preceded by a retryable error (HTTP 429, or a message containing
"network"/"fetch"/"timeout") and sleeps `getBackoffDelay(retryCount) =
min(1000 * 2^retryCount, 30000)` ms before re-attempting (retry counts
1, 2, ...); a failure that stopped before the attempt cap stopped on a
non-retryable error and the record's result is terminal
(`retryable = false`) for this run. -/
theorem record_retry_spec :
    (∀ (d : TagDataStructure) (o : MigOracles) (uri : String),
      (runRecordOutcome d o uri).attempts ≤ 3 ∧
      (runRecordOutcome d o uri).delays =
        (List.range ((runRecordOutcome d o uri).attempts - 1)).map
          (fun j => getBackoffDelay (j + 1)) ∧
      (∀ e ∈ (if (runRecordOutcome d o uri).success then
            (runRecordOutcome d o uri).errors
          else (runRecordOutcome d o uri).errors.dropLast),
        isRetryableError e = true) ∧
      ((runRecordOutcome d o uri).success = false →
        (runRecordOutcome d o uri).attempts < 3 →
          (runRecordResult d o uri).retryable = false)) ∧
    (∀ a : Nat, getBackoffDelay a = min (1000 * 2 ^ a) 30000) ∧
    (∀ e : FetchError,
      isRetryableError e =
        (e.status == some 429 || strIncludes e.message "network" ||
          strIncludes e.message "fetch" || strIncludes e.message "timeout")) := by
  refine ⟨?_, fun a => rfl, fun e => rfl⟩
  intro d o uri
  have hR2 : runRecordOutcome d o uri =
      recordLoop o uri (needsMetadataOf (getTrackData d uri))
        ((getTrackData d uri).bpm.isNone) 3 0 Updates.empty 0 0 := rfl
  have inv := recordLoop_inv o uri (needsMetadataOf (getTrackData d uri))
    ((getTrackData d uri).bpm.isNone) 3 0 Updates.empty 0 0 rfl
  rw [← hR2] at inv
  obtain ⟨h1, _, h3, _, h5, h6⟩ := inv
  refine ⟨h1, ?_, h5, ?_⟩
  · rw [h3]
    have hfun : (fun j => getBackoffDelay (0 + 1 + j)) =
        (fun j => getBackoffDelay (j + 1)) := by
      funext j
      congr 1
      omega
    rw [hfun]
  · intro hs hlt
    have hres : (runRecordResult d o uri).retryable =
        (if (runRecordOutcome d o uri).success then false
          else isRetryableErrorO (runRecordOutcome d o uri).lastErr) := rfl
    rw [hres, hs]
    simpa using h6 hs hlt

/-- Witness for C7: a record whose fetch throws a non-retryable error
(status 500) fails terminally after a single attempt. -/
theorem record_retry_spec_witness :
    (runRecordOutcome ⟨[("spotify:track:w", ⟨5, 3, ["x"], none, none, some 100⟩)]⟩
        ⟨fun _ => none, fun _ _ => .error ⟨some 500, "boom"⟩,
          fun _ _ => .ok (some 120)⟩ "spotify:track:w").success = false ∧
    (runRecordOutcome ⟨[("spotify:track:w", ⟨5, 3, ["x"], none, none, some 100⟩)]⟩
        ⟨fun _ => none, fun _ _ => .error ⟨some 500, "boom"⟩,
          fun _ _ => .ok (some 120)⟩ "spotify:track:w").attempts < 3 ∧
    (runRecordResult ⟨[("spotify:track:w", ⟨5, 3, ["x"], none, none, some 100⟩)]⟩
        ⟨fun _ => none, fun _ _ => .error ⟨some 500, "boom"⟩,
          fun _ _ => .ok (some 120)⟩ "spotify:track:w").retryable = false :=
  ⟨by decide, by decide,
    (record_retry_spec.1 ⟨[("spotify:track:w", ⟨5, 3, ["x"], none, none, some 100⟩)]⟩
        ⟨fun _ => none, fun _ _ => .error ⟨some 500, "boom"⟩,
          fun _ _ => .ok (some 120)⟩ "spotify:track:w").2.2.2
      (by decide) (by decide)⟩

/-! ## Claim C6: batch settlement -/

theorem mem_setAdd (l : List String) (u x : String) :
    x ∈ setAdd l u ↔ x ∈ l ∨ x = u := by
  unfold setAdd
  by_cases h : l.contains u
  · rw [if_pos h]
    constructor
    · exact Or.inl
    · rintro (hx | rfl)
      · exact hx
      · exact (contains_eq_true_iff l x).mp h
  · rw [if_neg h]
    simp

theorem mem_setDel (l : List String) (u x : String) :
    x ∈ setDel l u ↔ x ∈ l ∧ x ≠ u := by
  unfold setDel
  rw [List.mem_filter]
  constructor
  · rintro ⟨h1, h2⟩
    refine ⟨h1, fun hc => ?_⟩
    subst hc
    simp at h2
  · rintro ⟨h1, h2⟩
    exact ⟨h1, by simpa using h2⟩

theorem lookup_cons_eq (u k : String) (v : TrackData)
    (ps : List (String × TrackData)) :
    List.lookup u ((k, v) :: ps) =
      if (u == k) = true then some v else List.lookup u ps := by
  cases h : u == k <;> simp [List.lookup, h]

theorem lookup_updTrack_ne (d : TagDataStructure) (uri : String)
    (f : TrackData → TrackData) (u : String) (h : u ≠ uri) :
    ((updTrack d uri f).tracks).lookup u = d.tracks.lookup u := by
  obtain ⟨tracks⟩ := d
  induction tracks with
  | nil => rfl
  | cons p ps ih =>
    obtain ⟨k, v⟩ := p
    show List.lookup u (((k, v) :: ps).map fun q =>
      if q.1 == uri then (q.1, f q.2) else q) = List.lookup u ((k, v) :: ps)
    by_cases hk : (k == uri) = true
    · have hkeq : k = uri := by simpa using hk
      have hku : (u == k) = false := by
        subst hkeq
        simpa using h
      simp only [List.map_cons, if_pos hk, lookup_cons_eq, hku]
      rw [if_neg (by simp), if_neg (by simp)]
      exact ih
    · simp only [List.map_cons, if_neg hk, lookup_cons_eq]
      cases hku : (u == k)
      · rw [if_neg (by simp), if_neg (by simp)]
        exact ih
      · simp

theorem lookup_updTrack_self (d : TagDataStructure) (uri : String)
    (f : TrackData → TrackData) :
    ((updTrack d uri f).tracks).lookup uri = (d.tracks.lookup uri).map f := by
  obtain ⟨tracks⟩ := d
  induction tracks with
  | nil => rfl
  | cons p ps ih =>
    obtain ⟨k, v⟩ := p
    show List.lookup uri (((k, v) :: ps).map fun q =>
      if q.1 == uri then (q.1, f q.2) else q) =
      (List.lookup uri ((k, v) :: ps)).map f
    by_cases hk : (k == uri) = true
    · have hku : (uri == k) = true := by
        have : k = uri := by simpa using hk
        simp [this]
      simp only [List.map_cons, if_pos hk, lookup_cons_eq, hku]
      rw [if_pos trivial, if_pos trivial]
      rfl
    · have hku : (uri == k) = false := by
        cases hc : uri == k
        · rfl
        · exfalso
          apply hk
          have huk : uri = k := by simpa using hc
          simp [huk]
      simp only [List.map_cons, if_neg hk, lookup_cons_eq, hku]
      rw [if_neg (by simp), if_neg (by simp)]
      exact ih

theorem processResult_stable (acc : BatchAcc) (r : TrackMigrationResult)
    (u : String) (h : r.uri ≠ u) :
    (u ∈ (processResult acc r).processed ↔ u ∈ acc.processed) ∧
    (u ∈ (processResult acc r).failed ↔ u ∈ acc.failed) ∧
    ((processResult acc r).data).tracks.lookup u = acc.data.tracks.lookup u := by
  have hne : u ≠ r.uri := fun hc => h hc.symm
  unfold processResult
  by_cases hs : r.success
  · rw [if_pos hs]
    refine ⟨?_, ?_, ?_⟩
    · rw [mem_setAdd]
      exact ⟨fun hx => hx.elim id (fun hc => absurd hc hne), Or.inl⟩
    · rw [mem_setDel]
      exact ⟨fun hx => hx.1, fun hx => ⟨hx, hne⟩⟩
    · by_cases hu : updatesNonEmpty r.updates
      · simp only [hu, if_pos]
        exact lookup_updTrack_ne acc.data r.uri _ u hne
      · simp only [hu, Bool.false_eq_true, if_neg, not_false_iff]
  · rw [if_neg hs]
    by_cases hr : r.retryable
    · rw [if_pos hr]
      refine ⟨Iff.rfl, ?_, rfl⟩
      rw [mem_setAdd]
      exact ⟨fun hx => hx.elim id (fun hc => absurd hc hne), Or.inl⟩
    · rw [if_neg hr]
      refine ⟨?_, ?_, rfl⟩
      · rw [mem_setAdd]
        exact ⟨fun hx => hx.elim id (fun hc => absurd hc hne), Or.inl⟩
      · rw [mem_setDel]
        exact ⟨fun hx => hx.1, fun hx => ⟨hx, hne⟩⟩

theorem processResults_stable (rs : List TrackMigrationResult) :
    ∀ (acc : BatchAcc) (u : String), (∀ x ∈ rs, x.uri ≠ u) →
      (u ∈ (processResults acc rs).processed ↔ u ∈ acc.processed) ∧
      (u ∈ (processResults acc rs).failed ↔ u ∈ acc.failed) ∧
      ((processResults acc rs).data).tracks.lookup u = acc.data.tracks.lookup u := by
  induction rs with
  | nil => intro acc u _; exact ⟨Iff.rfl, Iff.rfl, rfl⟩
  | cons x xs ih =>
    intro acc u h
    have hx := processResult_stable acc x u (h x (List.mem_cons_self x xs))
    have hxs := ih (processResult acc x) u
      (fun y hy => h y (List.mem_cons_of_mem x hy))
    exact ⟨hxs.1.trans hx.1, hxs.2.1.trans hx.2.1, hxs.2.2.trans hx.2.2⟩

theorem not_mem_remaining_of (targets processed failed : List String) (u : String)
    (h1 : u ∈ processed) (h2 : u ∉ failed) :
    u ∉ remainingTracks targets processed failed := by
  intro hc
  rcases (mem_remainingTracks targets processed failed u).mp hc with ⟨_, h | h⟩
  · exact h h1
  · exact h2 h

/-- C6: after the settled results of one batch are folded into the state
(dataset, processed set, failed set), for every result of the batch
(whose uris are distinct, as batches are slices of the duplicate-free
still-needs-work list): a succeeded record has its non-empty updates
merged into its dataset record, its key in `processed` and out of
`failed`; a retryable-failed key is in `failed` and, if it was not
already processed, stays out of `processed`; a terminal-failed key is in
`processed`, out of `failed`, its dataset record untouched (partially
fetched updates are not merged), and it is excluded from the remaining
set of any future run. -/
theorem batch_settlement_spec (acc : BatchAcc) (rs : List TrackMigrationResult)
    (r : TrackMigrationResult) (t0 : TrackData) (targets : List String)
    (hmem : r ∈ rs) (hnodup : (rs.map (fun x => x.uri)).Nodup) :
    (r.success = true →
      r.uri ∈ (processResults acc rs).processed ∧
      r.uri ∉ (processResults acc rs).failed ∧
      (acc.data.tracks.lookup r.uri = some t0 →
        ((processResults acc rs).data).tracks.lookup r.uri =
          some (if updatesNonEmpty r.updates then applyUpdates r.updates t0
            else t0))) ∧
    (r.success = false → r.retryable = true →
      r.uri ∈ (processResults acc rs).failed ∧
      (r.uri ∉ acc.processed → r.uri ∉ (processResults acc rs).processed)) ∧
    (r.success = false → r.retryable = false →
      r.uri ∈ (processResults acc rs).processed ∧
      r.uri ∉ (processResults acc rs).failed ∧
      ((processResults acc rs).data).tracks.lookup r.uri =
        acc.data.tracks.lookup r.uri ∧
      r.uri ∉ remainingTracks targets (processResults acc rs).processed
        (processResults acc rs).failed) := by
  induction rs generalizing acc with
  | nil => exact absurd hmem (List.not_mem_nil r)
  | cons x xs ih =>
    have hnd : x.uri ∉ xs.map (fun z => z.uri) ∧
        (xs.map (fun z => z.uri)).Nodup := by
      rw [List.map_cons] at hnodup
      exact List.nodup_cons.mp hnodup
    rcases List.mem_cons.mp hmem with rfl | htail
    · -- r is the head: establish the step postcondition, then carry it
      -- through the rest of the batch by uri-stability
      have hdiff : ∀ y ∈ xs, y.uri ≠ r.uri := by
        intro y hy hc
        exact hnd.1 (hc ▸ List.mem_map_of_mem (fun z => z.uri) hy)
      have hstab := processResults_stable xs (processResult acc r) r.uri hdiff
      have hres : processResults acc (r :: xs) =
          processResults (processResult acc r) xs := rfl
      rw [hres]
      refine ⟨?_, ?_, ?_⟩
      · intro hs
        refine ⟨?_, ?_, ?_⟩
        · exact hstab.1.mpr (by
            unfold processResult
            rw [if_pos hs]
            exact (mem_setAdd _ _ _).mpr (Or.inr rfl))
        · intro hc
          have := hstab.2.1.mp hc
          unfold processResult at this
          rw [if_pos hs] at this
          exact ((mem_setDel _ _ _).mp this).2 rfl
        · intro hl
          rw [hstab.2.2]
          unfold processResult
          rw [if_pos hs]
          by_cases hu : updatesNonEmpty r.updates = true
          · rw [if_pos hu, if_pos hu, lookup_updTrack_self, hl]
            rfl
          · rw [if_neg hu, if_neg hu]
            exact hl
      · intro hs hr
        refine ⟨?_, ?_⟩
        · exact hstab.2.1.mpr (by
            unfold processResult
            rw [if_neg (by rw [hs]; exact Bool.false_ne_true), if_pos hr]
            exact (mem_setAdd _ _ _).mpr (Or.inr rfl))
        · intro hnp hc
          have := hstab.1.mp hc
          unfold processResult at this
          rw [if_neg (by rw [hs]; exact Bool.false_ne_true), if_pos hr] at this
          exact hnp this
      · intro hs hr
        have hproc : r.uri ∈ (processResults (processResult acc r) xs).processed :=
          hstab.1.mpr (by
            unfold processResult
            rw [if_neg (by rw [hs]; exact Bool.false_ne_true),
              if_neg (by rw [hr]; exact Bool.false_ne_true)]
            exact (mem_setAdd _ _ _).mpr (Or.inr rfl))
        have hfail : r.uri ∉ (processResults (processResult acc r) xs).failed := by
          intro hc
          have := hstab.2.1.mp hc
          unfold processResult at this
          rw [if_neg (by rw [hs]; exact Bool.false_ne_true),
            if_neg (by rw [hr]; exact Bool.false_ne_true)] at this
          exact ((mem_setDel _ _ _).mp this).2 rfl
        refine ⟨hproc, hfail, ?_, ?_⟩
        · rw [hstab.2.2]
          unfold processResult
          rw [if_neg (by rw [hs]; exact Bool.false_ne_true),
            if_neg (by rw [hr]; exact Bool.false_ne_true)]
        · exact not_mem_remaining_of targets _ _ r.uri hproc hfail
    · -- r is in the tail: apply the induction hypothesis over the state
      -- after the head result, transporting the pre-state hypotheses
      have hxne : x.uri ≠ r.uri := by
        intro hc
        exact hnd.1 (hc ▸ List.mem_map_of_mem (fun z => z.uri) htail)
      have hstep := processResult_stable acc x r.uri hxne
      have hres : processResults acc (x :: xs) =
          processResults (processResult acc x) xs := rfl
      rw [hres]
      have IH := ih (processResult acc x) htail hnd.2
      refine ⟨?_, ?_, ?_⟩
      · intro hs
        refine ⟨(IH.1 hs).1, (IH.1 hs).2.1, ?_⟩
        intro hl
        exact (IH.1 hs).2.2 (hstep.2.2.trans hl)
      · intro hs hr
        refine ⟨(IH.2.1 hs hr).1, ?_⟩
        intro hnp
        exact (IH.2.1 hs hr).2 (fun hc => hnp (hstep.1.mp hc))
      · intro hs hr
        refine ⟨(IH.2.2 hs hr).1, (IH.2.2 hs hr).2.1, ?_, (IH.2.2 hs hr).2.2.2⟩
        exact (IH.2.2 hs hr).2.2.1.trans hstep.2.2

/-- Witness for C6: a one-record batch whose record succeeded with a
name update; after settlement the key is processed, not failed, and the
update is merged onto its dataset record. -/
theorem batch_settlement_spec_witness :
    ("a" ∈ (processResults ⟨⟨[("a", ⟨5, 3, ["x"], none, none, some 1⟩)]⟩, [], [], 0, 0⟩
        [⟨"a", true, ⟨some "N", none, none⟩, false⟩]).processed) ∧
    ("a" ∉ (processResults ⟨⟨[("a", ⟨5, 3, ["x"], none, none, some 1⟩)]⟩, [], [], 0, 0⟩
        [⟨"a", true, ⟨some "N", none, none⟩, false⟩]).failed) ∧
    ((processResults ⟨⟨[("a", ⟨5, 3, ["x"], none, none, some 1⟩)]⟩, [], [], 0, 0⟩
        [⟨"a", true, ⟨some "N", none, none⟩, false⟩]).data.tracks.lookup "a" =
      some (if updatesNonEmpty (⟨some "N", none, none⟩ : Updates) = true
        then applyUpdates ⟨some "N", none, none⟩ ⟨5, 3, ["x"], none, none, some 1⟩
        else ⟨5, 3, ["x"], none, none, some 1⟩)) := by
  have h := (batch_settlement_spec
      ⟨⟨[("a", ⟨5, 3, ["x"], none, none, some 1⟩)]⟩, [], [], 0, 0⟩
      [⟨"a", true, ⟨some "N", none, none⟩, false⟩]
      ⟨"a", true, ⟨some "N", none, none⟩, false⟩
      ⟨5, 3, ["x"], none, none, some 1⟩ ["a"]
      (List.mem_cons_self _ _) (by simp)).1 rfl
  exact ⟨h.1, h.2.1, h.2.2 rfl⟩

/-! ## Claim C5: the pause protocol -/

/-- C5: (i) when folding a batch's settled results brings the
consecutive-failure count to the hard ceiling 10, the network pass first
persists the current progress (processed and failed key sets) and the
working dataset — in that order — and only then raises the pause error;
(ii) the raised message carries the distinguishable "Migration paused"
marker; (iii) the driver catches exactly that marker: it finishes with
`ok`, leaves the `addTrackMetadata` flag false in the saved state (so
the migration reruns on the next invocation) and still runs the
subsequent `removeTrackInfoCache` migration; (iv) any other error from
the metadata migration is rethrown. -/
theorem pause_protocol_spec :
    (∀ (o : MigOracles) (meta : MigrationProgress) (total stillLen : Nat)
        (batch : List String) (rest : List (List String)) (i : Nat) (acc : NetAcc)
        (b : BatchAcc) (cf : Nat),
      processResults ⟨acc.data, acc.processed, acc.failed, acc.consecutiveFailures, 0⟩
          (batch.map (fun u => runRecordResult acc.data o u)) = b →
      (if b.batchFailures > 0 then b.consecutiveFailures + b.batchFailures
        else b.consecutiveFailures) = cf →
      10 ≤ cf →
        netLoop o meta total stillLen (batch :: rest) i acc =
          (.error pauseMsg,
            [.saveProgress (some (mkProg meta b.processed b.failed)),
              .setTagData b.data])) ∧
    strIncludes pauseMsg "Migration paused" = true ∧
    (∀ (v ver : String) (prog : Option MigrationProgress) (now : Int)
        (o : MigOracles) (d : TagDataStructure) (m : String)
        (effs2 : List MigEffect),
      d.tracks.isEmpty = false →
      addTrackMetadataMigration prog now o d = (.error m, effs2) →
      strIncludes m "Migration paused" = true →
        runMigrations v ⟨ver, true, false, false⟩ prog now o d =
          (.ok true, effs2 ++ [.removeTrackInfoCacheKey,
            .saveState ⟨v, true, false, true⟩, .dispatchDataUpdated])) ∧
    (∀ (v ver : String) (prog : Option MigrationProgress) (now : Int)
        (o : MigOracles) (d : TagDataStructure) (m : String)
        (effs2 : List MigEffect),
      d.tracks.isEmpty = false →
      addTrackMetadataMigration prog now o d = (.error m, effs2) →
      strIncludes m "Migration paused" = false →
        runMigrations v ⟨ver, true, false, false⟩ prog now o d =
          (.error m, effs2)) := by
  refine ⟨?_, by decide, ?_, ?_⟩
  · intro o meta total stillLen batch rest i acc b cf hb hcf hge
    rw [netLoop]
    dsimp only
    rw [hb, hcf, if_pos hge]
  · intro v ver prog now o d m effs2 hEmpty hMig hInc
    simp [runMigrations, finishMigrations, hEmpty, hMig, hInc]
  · intro v ver prog now o d m effs2 hEmpty hMig hInc
    simp [runMigrations, hEmpty, hMig, hInc]

/-- Witness for C5: ten records whose fetches all fail non-retryably;
batch one accumulates 5 consecutive failures and batch two reaches the
ceiling of 10, so the migration pauses; the driver catches the pause,
returns `ok true` (the third migration still ran), and the saved state
keeps `addTrackMetadata = false`. -/
theorem pause_protocol_spec_witness :
    runMigrations "1.0" ⟨"0.9", true, false, false⟩ none 0
      ⟨fun _ => none, fun _ _ => .error ⟨some 500, "boom"⟩, fun _ _ => .ok (some 120)⟩
      ⟨[("spotify:track:t0", ⟨5, 3, ["x"], none, none, some 100⟩),
        ("spotify:track:t1", ⟨5, 3, ["x"], none, none, some 100⟩),
        ("spotify:track:t2", ⟨5, 3, ["x"], none, none, some 100⟩),
        ("spotify:track:t3", ⟨5, 3, ["x"], none, none, some 100⟩),
        ("spotify:track:t4", ⟨5, 3, ["x"], none, none, some 100⟩),
        ("spotify:track:t5", ⟨5, 3, ["x"], none, none, some 100⟩),
        ("spotify:track:t6", ⟨5, 3, ["x"], none, none, some 100⟩),
        ("spotify:track:t7", ⟨5, 3, ["x"], none, none, some 100⟩),
        ("spotify:track:t8", ⟨5, 3, ["x"], none, none, some 100⟩),
        ("spotify:track:t9", ⟨5, 3, ["x"], none, none, some 100⟩)]⟩ =
      (.ok true,
        (addTrackMetadataMigration none 0
          ⟨fun _ => none, fun _ _ => .error ⟨some 500, "boom"⟩,
            fun _ _ => .ok (some 120)⟩
          ⟨[("spotify:track:t0", ⟨5, 3, ["x"], none, none, some 100⟩),
            ("spotify:track:t1", ⟨5, 3, ["x"], none, none, some 100⟩),
            ("spotify:track:t2", ⟨5, 3, ["x"], none, none, some 100⟩),
            ("spotify:track:t3", ⟨5, 3, ["x"], none, none, some 100⟩),
            ("spotify:track:t4", ⟨5, 3, ["x"], none, none, some 100⟩),
            ("spotify:track:t5", ⟨5, 3, ["x"], none, none, some 100⟩),
            ("spotify:track:t6", ⟨5, 3, ["x"], none, none, some 100⟩),
            ("spotify:track:t7", ⟨5, 3, ["x"], none, none, some 100⟩),
            ("spotify:track:t8", ⟨5, 3, ["x"], none, none, some 100⟩),
            ("spotify:track:t9", ⟨5, 3, ["x"], none, none, some 100⟩)]⟩).2 ++
          [.removeTrackInfoCacheKey, .saveState ⟨"1.0", true, false, true⟩,
            .dispatchDataUpdated]) :=
  pause_protocol_spec.2.2.1 "1.0" "0.9" none 0
    ⟨fun _ => none, fun _ _ => .error ⟨some 500, "boom"⟩, fun _ _ => .ok (some 120)⟩
    ⟨[("spotify:track:t0", ⟨5, 3, ["x"], none, none, some 100⟩),
      ("spotify:track:t1", ⟨5, 3, ["x"], none, none, some 100⟩),
      ("spotify:track:t2", ⟨5, 3, ["x"], none, none, some 100⟩),
      ("spotify:track:t3", ⟨5, 3, ["x"], none, none, some 100⟩),
      ("spotify:track:t4", ⟨5, 3, ["x"], none, none, some 100⟩),
      ("spotify:track:t5", ⟨5, 3, ["x"], none, none, some 100⟩),
      ("spotify:track:t6", ⟨5, 3, ["x"], none, none, some 100⟩),
      ("spotify:track:t7", ⟨5, 3, ["x"], none, none, some 100⟩),
      ("spotify:track:t8", ⟨5, 3, ["x"], none, none, some 100⟩),
      ("spotify:track:t9", ⟨5, 3, ["x"], none, none, some 100⟩)]⟩
    pauseMsg
    (addTrackMetadataMigration none 0
      ⟨fun _ => none, fun _ _ => .error ⟨some 500, "boom"⟩, fun _ _ => .ok (some 120)⟩
      ⟨[("spotify:track:t0", ⟨5, 3, ["x"], none, none, some 100⟩),
        ("spotify:track:t1", ⟨5, 3, ["x"], none, none, some 100⟩),
        ("spotify:track:t2", ⟨5, 3, ["x"], none, none, some 100⟩),
        ("spotify:track:t3", ⟨5, 3, ["x"], none, none, some 100⟩),
        ("spotify:track:t4", ⟨5, 3, ["x"], none, none, some 100⟩),
        ("spotify:track:t5", ⟨5, 3, ["x"], none, none, some 100⟩),
        ("spotify:track:t6", ⟨5, 3, ["x"], none, none, some 100⟩),
        ("spotify:track:t7", ⟨5, 3, ["x"], none, none, some 100⟩),
        ("spotify:track:t8", ⟨5, 3, ["x"], none, none, some 100⟩),
        ("spotify:track:t9", ⟨5, 3, ["x"], none, none, some 100⟩)]⟩).2
    (by decide) (by decide) (by decide)
